import Mathlib

/-!
Shallow embedding of `src/worker.js`.

The worker is a Cloudflare Worker exposing a JSON API over a key-value
store plus a static file server.  We embed it as follows.

* JSON values are the inductive `Json`.  JavaScript numbers are modelled
  as `Int` (the claims only quantify over integer indexes and compare
  values for equality; non-integral literals are not needed by any claim).
* A possibly-`undefined` JavaScript value is `Option Json`
  (`none` = `undefined`; `undefined` cannot occur inside a parsed JSON
  value, only as the result of a missing-property access).
* The KV store is modelled with serialization elided: static assets are a
  map `String → Option String` of raw contents, and the `"websites"` slot
  is the parsed JSON value stored under that key (`none` = key absent).
  `JSON.stringify`/`JSON.parse` are injective/inverse on this fragment, so
  a value-level store is a faithful view of the text-level one for every
  state the claims quantify over (absent key, or valid JSON array text).
* Each mutating handler returns the response together with the value it
  `put` under `"websites"` (`none` = no write happened), so "performs no
  write" is directly observable.
-/

inductive Json : Type where
  | null : Json
  | bool : Bool → Json
  | num  : Int → Json
  | str  : String → Json
  | arr  : List Json → Json
  | obj  : List (String × Json) → Json

/-- JavaScript property access `v[k]`, for parsed JSON values.
`none` means the access throws a `TypeError` (access on `null`);
`some none` means the property is `undefined`; `some (some w)` is a
present field.  Object field lists are parse output, hence key-unique. -/
def jsProp : Json → String → Option (Option Json)
  | Json.null,   _ => none
  | Json.obj fs, k => some (fs.lookup k)
  | _,           _ => some none

/-- Property access `v[k]` when `v` is known not to throw (used after dispatch has already
read `v.action` successfully, which forces `v` to be an object). -/
def jsGet (v : Json) (k : String) : Option Json :=
  (jsProp v k).getD none

/-- JavaScript strict equality `===` as it applies in
`handleDeleteRequest`: the two sides come from two distinct `JSON.parse`
calls (the stored text and the request body), so object and array values
are never reference-equal and compare `false`; primitives compare by
value with no coercion. -/
def strictEq : Option Json → Option Json → Bool
  | none,                none                => true
  | some Json.null,      some Json.null      => true
  | some (Json.bool a),  some (Json.bool b)  => a == b
  | some (Json.num a),   some (Json.num b)   => a == b
  | some (Json.str a),   some (Json.str b)   => a == b
  | _,                   _                   => false

/-- The `id` property of a stored element, as read by
`website => website.id !== websiteId`.  On a non-object element the
access yields `undefined` (`none`); `handleDeleteRequest` guards the
`Json.null` case (where the access would throw) before this is used. -/
def jsId : Json → Option Json
  | Json.obj fs => fs.lookup "id"
  | _           => none

def isNullJson : Json → Bool
  | Json.null => true
  | _         => false

/-- Response bodies: `Body.text s` is a plain string body, `Body.json v`
stands for the text `JSON.stringify(v)` (serialization elided). -/
inductive Body : Type where
  | text : String → Body
  | json : Json → Body

/-- An HTTP response: status, body, and the `Content-Type` header if the
source sets one (`none` = only the CORS headers, which every API response
carries and which no claim mentions). -/
structure Resp : Type where
  status : Nat
  body : Body
  contentType : Option String

/-- The read half of each handler (parse the stored text, defaulting an
absent key to the empty array) followed by use as an array:
an absent key reads as `[]`; a stored array reads as itself; a stored
non-array makes the array operations of add/update/delete misbehave
(`none` here; each handler translates that case as the source does). -/
def readWebsites : Option Json → Option (List Json)
  | none                 => some []
  | some (Json.arr ws)   => some ws
  | some _               => none

/-- A possibly-`undefined` value as it lands in the stored array:
`JSON.stringify` serializes an `undefined` array element as `null`. -/
def toStored : Option Json → Json :=
  fun d => d.getD Json.null

def jsonResp (v : Json) : Resp :=
  ⟨200, Body.json v, some "application/json"⟩

def successResp : Resp :=
  jsonResp (Json.obj [("success", Json.bool true)])

/-- Embedding of `handleGetRequest`: responds `{websites: parsed-or-[]}`. -/
def handleGetRequest : Option Json → Resp
  | none   => jsonResp (Json.obj [("websites", Json.arr [])])
  | some v => jsonResp (Json.obj [("websites", v)])

/-- Embedding of `handleAddRequest`: read, push, write back.  On a stored non-array
the `.push` throws before the `put`, giving 500 and no write. -/
def handleAddRequest (websiteData : Option Json) (st : Option Json) :
    Resp × Option Json :=
  match readWebsites st with
  | some ws => (successResp, some (Json.arr (ws ++ [toStored websiteData])))
  | none    => (⟨500, Body.text "Error adding website", none⟩, none)

/-- Embedding of `handleUpdateRequest`: read; if `index >= 0 && index < length`,
replace in place and write back, else 400 and no write.  On a stored
non-array, `.length` is `undefined` and the bound check is false, so the
same 400 branch is taken. -/
def handleUpdateRequest (websiteData : Option Json) (index : Int)
    (st : Option Json) : Resp × Option Json :=
  match readWebsites st with
  | some ws =>
    if 0 ≤ index ∧ index < (ws.length : Int) then
      (successResp, some (Json.arr (ws.set index.toNat (toStored websiteData))))
    else
      (⟨400, Body.text "Invalid index", none⟩, none)
  | none => (⟨400, Body.text "Invalid index", none⟩, none)

/-- Embedding of `handleDeleteRequest`: read, `filter(website => website.id !==
websiteId)`, write back.  If some element is `null`, the property access
inside the filter throws a `TypeError` before the `put`, giving 500 and
no write; on a stored non-array `.filter` throws likewise. -/
def handleDeleteRequest (websiteId : Option Json) (st : Option Json) :
    Resp × Option Json :=
  match readWebsites st with
  | some ws =>
    if ws.any isNullJson then
      (⟨500, Body.text "Error deleting website", none⟩, none)
    else
      (successResp,
       some (Json.arr (ws.filter (fun w => !strictEq (jsId w) websiteId))))
  | none => (⟨500, Body.text "Error deleting website", none⟩, none)

/-- Embedding of `handleApiRequest`: the method guard, `request.json()` (`none` body =
the parse threw), the `data.action` read, and the `switch` dispatch with
strict string matching and a 400 default.  A non-number `index` value is
modelled as failing the bound check (the JavaScript numeric coercion of
such values is outside every claim and elided). -/
def handleApiRequest (method : String) (body : Option Json)
    (st : Option Json) : Resp × Option Json :=
  if method ≠ "POST" then
    (⟨405, Body.text "Method not allowed", none⟩, none)
  else
    match body with
    | none => (⟨500, Body.text "Error processing request", none⟩, none)
    | some data =>
      match jsProp data "action" with
      | none => (⟨500, Body.text "Error processing request", none⟩, none)
      | some action =>
        match action with
        | some (Json.str a) =>
          if a = "get" then (handleGetRequest st, none)
          else if a = "add" then handleAddRequest (jsGet data "data") st
          else if a = "update" then
            match jsGet data "index" with
            | some (Json.num i) => handleUpdateRequest (jsGet data "data") i st
            | _ => (⟨400, Body.text "Invalid index", none⟩, none)
          else if a = "delete" then handleDeleteRequest (jsGet data "id") st
          else (⟨400, Body.text "Invalid action", none⟩, none)
        | _ => (⟨400, Body.text "Invalid action", none⟩, none)

/-- JavaScript `s.endsWith(suffix)`: the characters of `suffix` are a
suffix of the characters of `s`. -/
def jsEndsWith (s suffix : String) : Bool :=
  suffix.data.isSuffixOf s.data

/-- JavaScript `s.startsWith(p)`. -/
def jsStartsWith (s p : String) : Bool :=
  p.data.isPrefixOf s.data

/-- JavaScript `s.slice(1)`: drop the first character. -/
def jsSlice1 (s : String) : String :=
  String.mk (s.data.drop 1)

/-- Source line: strip one leading slash from the path, keeping the rest
(`path.startsWith` guarded slice). -/
def stripSlash (path : String) : String :=
  if jsStartsWith path "/" then jsSlice1 path else path

/-- Embedding of `getContentType`: the suffix table, checked in source order. -/
def getContentType (filePath : String) : String :=
  if jsEndsWith filePath ".html" then "text/html"
  else if jsEndsWith filePath ".css" then "text/css"
  else if jsEndsWith filePath ".js" then "application/javascript"
  else if jsEndsWith filePath ".png" then "image/png"
  else if jsEndsWith filePath ".jpg" ∨ jsEndsWith filePath ".jpeg" then "image/jpeg"
  else if jsEndsWith filePath ".svg" then "image/svg+xml"
  else "application/octet-stream"

/-- Embedding of `serveStaticFile`: strip one leading slash, look up, and test the
result with `if (fileContent)` — JavaScript truthiness, under which both
a missing key (`null`) and an empty-string value take the 404 branch. -/
def serveStaticFile (path : String) (assets : String → Option String) :
    Resp :=
  let filePath := stripSlash path
  match assets filePath with
  | some fileContent =>
    if fileContent ≠ "" then
      ⟨200, Body.text fileContent, some (getContentType filePath)⟩
    else
      ⟨404, Body.text "File not found", some "text/plain"⟩
  | none => ⟨404, Body.text "File not found", some "text/plain"⟩

/-- The suffix test of the static branch of the router. -/
def isStaticPath (path : String) : Bool :=
  jsEndsWith path ".html" || jsEndsWith path ".css" || jsEndsWith path ".js" ||
  jsEndsWith path ".png" || jsEndsWith path ".jpg" || jsEndsWith path ".svg"

/-- An incoming request: method, path, and the JSON parse of its body
(`none` = the body is not valid JSON, so `request.json()` throws). -/
structure Request : Type where
  method : String
  path : String
  body : Option Json

/-- The view the worker has of the KV store: the raw static-asset contents, and
the parsed value of the `"websites"` key (the two key spaces share one
physical store; no claim crosses them). -/
structure Env : Type where
  assets : String → Option String
  websites : Option Json

/-- The entry point `fetch`: OPTIONS short-circuit, the POST-and-API-path
test, the static-suffix test, and the index-document default.  The second
component is the value written under `"websites"`, if any. -/
def fetch (req : Request) (env : Env) : Resp × Option Json :=
  if req.method = "OPTIONS" then
    (⟨200, Body.text "OK", none⟩, none)
  else if req.method = "POST" ∧
      (jsEndsWith req.path "/worker.js" ∨ jsStartsWith req.path "/api/") then
    handleApiRequest req.method req.body env.websites
  else if isStaticPath req.path then
    (serveStaticFile req.path env.assets, none)
  else
    (serveStaticFile "/index.html" env.assets, none)

/-- Apply a recorded write (`none` = no `put` happened) to the stored
`"websites"` value. -/
def applyWrite (st : Option Json) : Option Json → Option Json
  | none   => st
  | some v => some v

/-! ## Helper lemmas -/

/-- Case analysis for a successful collection read: the key is absent and
the collection reads as `[]`, or an array is stored. -/
theorem readWebsites_cases {st : Option Json} {ws : List Json}
    (h : readWebsites st = some ws) :
    (st = none ∧ ws = []) ∨ st = some (Json.arr ws) := by
  cases st with
  | none =>
    simp only [readWebsites, Option.some.injEq] at h
    exact Or.inl ⟨rfl, h.symm⟩
  | some v =>
    cases v <;> simp only [readWebsites, Option.some.injEq,
      reduceCtorEq] at h
    exact Or.inr (by rw [h])

theorem any_isNullJson_eq_false {ws : List Json} (h : Json.null ∉ ws) :
    ws.any isNullJson = false := by
  rw [List.any_eq_false]
  intro x hx
  cases x with
  | null => exact fun _ => h hx
  | bool b => simp [isNullJson]
  | num n => simp [isNullJson]
  | str s => simp [isNullJson]
  | arr l => simp [isNullJson]
  | obj fs => simp [isNullJson]

/-- The delete handler on a null-free stored collection: success, and it
writes back exactly the filtered collection. -/
theorem handleDelete_eq (st : Option Json) (ws : List Json) (wid : Option Json)
    (hst : readWebsites st = some ws) (hnn : Json.null ∉ ws) :
    handleDeleteRequest wid st =
      (successResp,
       some (Json.arr (ws.filter (fun w => !strictEq (jsId w) wid)))) := by
  rcases readWebsites_cases hst with ⟨rfl, rfl⟩ | rfl
  · rfl
  · simp [handleDeleteRequest, readWebsites, any_isNullJson_eq_false hnn]

/-! ## C2 -/

/-- C2: for a stored collection of length `N` and `0 ≤ i < N`, `update`
with record `R` and index `i` followed by `get` yields a collection of
the same length whose element at `i` is (deep-)equal to `R` and whose
other elements are unchanged. -/
theorem c2_update_then_get (st : Option Json) (ws : List Json) (R : Json)
    (i : Int) (hst : readWebsites st = some ws) (h0 : 0 ≤ i)
    (hi : i < (ws.length : Int)) :
    handleGetRequest (applyWrite st (handleUpdateRequest (some R) i st).2) =
      jsonResp (Json.obj [("websites", Json.arr (ws.set i.toNat R))])
    ∧ (ws.set i.toNat R).length = ws.length
    ∧ (ws.set i.toNat R)[i.toNat]? = some R
    ∧ ∀ j : Nat, j ≠ i.toNat → (ws.set i.toNat R)[j]? = ws[j]? := by
  have hup : handleUpdateRequest (some R) i st =
      (successResp, some (Json.arr (ws.set i.toNat R))) := by
    rcases readWebsites_cases hst with ⟨rfl, rfl⟩ | rfl
    · exfalso; simp at hi; omega
    · simp only [handleUpdateRequest, readWebsites]
      rw [if_pos ⟨h0, hi⟩]
      rfl
  refine ⟨by rw [hup]; rfl, List.length_set ws i.toNat R, ?_, ?_⟩
  · exact List.getElem?_set_self (by omega)
  · intro j hj
    exact List.getElem?_set_ne (fun hh => hj hh.symm)

theorem c2_witness :
    handleGetRequest (applyWrite (some (Json.arr [Json.num 1, Json.num 2]))
      (handleUpdateRequest (some (Json.str "x")) 0
        (some (Json.arr [Json.num 1, Json.num 2]))).2) =
      jsonResp (Json.obj [("websites", Json.arr [Json.str "x", Json.num 2])])
    ∧ ([Json.num 1, Json.num 2].set 0 (Json.str "x")).length = 2 := by
  have h := c2_update_then_get (some (Json.arr [Json.num 1, Json.num 2]))
    [Json.num 1, Json.num 2] (Json.str "x") 0 rfl (by decide) (by decide)
  exact ⟨h.1, h.2.1⟩

/-! ## C3 -/

/-- C3: for an out-of-range index (`i < 0` or `i ≥ N`), `update` responds
400 "Invalid index", performs no write, and the stored collection is
unchanged. -/
theorem c3_update_invalid_index (st : Option Json) (ws : List Json)
    (R : Json) (i : Int) (hst : readWebsites st = some ws)
    (h : i < 0 ∨ (ws.length : Int) ≤ i) :
    handleUpdateRequest (some R) i st =
      (⟨400, Body.text "Invalid index", none⟩, none)
    ∧ applyWrite st (handleUpdateRequest (some R) i st).2 = st := by
  have hneg : ¬ (0 ≤ i ∧ i < (ws.length : Int)) := by omega
  have hup : handleUpdateRequest (some R) i st =
      (⟨400, Body.text "Invalid index", none⟩, none) := by
    rcases readWebsites_cases hst with ⟨rfl, rfl⟩ | rfl
    · simp only [handleUpdateRequest, readWebsites]
      rw [if_neg hneg]
    · simp only [handleUpdateRequest, readWebsites]
      rw [if_neg hneg]
  exact ⟨hup, by rw [hup]; rfl⟩

theorem c3_witness :
    handleUpdateRequest (some (Json.str "x")) 5
      (some (Json.arr [Json.num 1, Json.num 2])) =
      (⟨400, Body.text "Invalid index", none⟩, none) := by
  have h := c3_update_invalid_index (some (Json.arr [Json.num 1, Json.num 2]))
    [Json.num 1, Json.num 2] (Json.str "x") 5 rfl (Or.inr (by decide))
  exact h.1

/-! ## C4 -/

/-- C4: `delete(id)` on a stored collection of records, followed by
`get`, yields exactly the non-matching elements in their original order
(so no element whose `id` strictly equals the identifier survives), the
response is `{success: true}`, and a delete matching nothing writes back
the collection unchanged.  The `Json.null ∉ ws` hypothesis reflects the
data model (elements are records): a stored `null` element would make the
`website.id` access in the filter throw. -/
theorem c4_delete_then_get (st : Option Json) (ws : List Json)
    (wid : Option Json) (hst : readWebsites st = some ws)
    (hnn : Json.null ∉ ws) :
    (handleDeleteRequest wid st).1 = successResp
    ∧ handleGetRequest (applyWrite st (handleDeleteRequest wid st).2) =
        jsonResp (Json.obj [("websites",
          Json.arr (ws.filter (fun w => !strictEq (jsId w) wid)))])
    ∧ (∀ w ∈ ws.filter (fun w => !strictEq (jsId w) wid),
        strictEq (jsId w) wid = false)
    ∧ ((∀ w ∈ ws, strictEq (jsId w) wid = false) →
        ws.filter (fun w => !strictEq (jsId w) wid) = ws) := by
  have hdel := handleDelete_eq st ws wid hst hnn
  refine ⟨by rw [hdel], by rw [hdel]; rfl, ?_, ?_⟩
  · intro w hw
    have hp := (List.mem_filter.mp hw).2
    simpa using hp
  · intro hall
    rw [List.filter_eq_self]
    intro a ha
    simp [hall a ha]

theorem c4_witness :
    (handleDeleteRequest (some (Json.str "b"))
        (some (Json.arr [Json.obj [("id", Json.str "a")],
          Json.obj [("id", Json.str "b")]]))).1 = successResp
    ∧ handleGetRequest (applyWrite
        (some (Json.arr [Json.obj [("id", Json.str "a")],
          Json.obj [("id", Json.str "b")]]))
        (handleDeleteRequest (some (Json.str "b"))
          (some (Json.arr [Json.obj [("id", Json.str "a")],
            Json.obj [("id", Json.str "b")]]))).2) =
      jsonResp (Json.obj [("websites",
        Json.arr [Json.obj [("id", Json.str "a")]])]) := by
  have h := c4_delete_then_get
    (some (Json.arr [Json.obj [("id", Json.str "a")],
      Json.obj [("id", Json.str "b")]]))
    [Json.obj [("id", Json.str "a")], Json.obj [("id", Json.str "b")]]
    (some (Json.str "b")) rfl (by simp)
  exact ⟨h.1, by simpa using h.2.1⟩

/-! ## C5 -/

/-- C5: `add(R)` followed by `get` yields the old collection with `R`
appended: the last element is (deep-)equal to `R` and the length grows by
exactly one; the absent-key case reads as the empty collection. -/
theorem c5_add_then_get (st : Option Json) (ws : List Json) (R : Json)
    (hst : readWebsites st = some ws) :
    (handleAddRequest (some R) st).1 = successResp
    ∧ handleGetRequest (applyWrite st (handleAddRequest (some R) st).2) =
        jsonResp (Json.obj [("websites", Json.arr (ws ++ [R]))])
    ∧ (ws ++ [R]).getLast? = some R
    ∧ (ws ++ [R]).length = ws.length + 1 := by
  have hadd : handleAddRequest (some R) st =
      (successResp, some (Json.arr (ws ++ [R]))) := by
    rcases readWebsites_cases hst with ⟨rfl, rfl⟩ | rfl
    · rfl
    · rfl
  refine ⟨by rw [hadd], by rw [hadd]; rfl, List.getLast?_concat ws, by simp⟩

theorem c5_witness :
    (handleAddRequest (some (Json.obj [("id", Json.str "a")])) none).1 =
      successResp
    ∧ handleGetRequest (applyWrite none
        (handleAddRequest (some (Json.obj [("id", Json.str "a")])) none).2) =
      jsonResp (Json.obj [("websites",
        Json.arr [Json.obj [("id", Json.str "a")]])]) := by
  have h := c5_add_then_get none [] (Json.obj [("id", Json.str "a")]) rfl
  exact ⟨h.1, by simpa using h.2.1⟩

/-! ## C6 -/

theorem add_write_arr (d : Option Json) (st : Option Json) (v : Json)
    (hv : (handleAddRequest d st).2 = some v) : ∃ l, v = Json.arr l := by
  unfold handleAddRequest at hv
  split at hv
  · simp only [Option.some.injEq] at hv
    exact ⟨_, hv.symm⟩
  · simp at hv

theorem update_write_arr (d : Option Json) (i : Int) (st : Option Json)
    (v : Json) (hv : (handleUpdateRequest d i st).2 = some v) :
    ∃ l, v = Json.arr l := by
  unfold handleUpdateRequest at hv
  split at hv
  · split at hv
    · simp only [Option.some.injEq] at hv
      exact ⟨_, hv.symm⟩
    · simp at hv
  · simp at hv

theorem delete_write_arr (wid : Option Json) (st : Option Json) (v : Json)
    (hv : (handleDeleteRequest wid st).2 = some v) : ∃ l, v = Json.arr l := by
  unfold handleDeleteRequest at hv
  split at hv
  · split at hv
    · simp at hv
    · simp only [Option.some.injEq] at hv
      exact ⟨_, hv.symm⟩
  · simp at hv

/-- C6: starting from an absent key or stored array (`readWebsites`
succeeds), every value `add`, `update`, and `delete` put back under the
`"websites"` key is an array — at the text level, `JSON.stringify` of an
array, i.e. valid JSON array text.  (In fact no hypothesis is needed:
when the stored value is not an array the handlers throw or reject before
writing.) -/
theorem c6_writes_are_arrays (st : Option Json) (ws : List Json)
    (hst : readWebsites st = some ws) (d wid : Option Json) (i : Int) :
    (∀ v, (handleAddRequest d st).2 = some v → ∃ l, v = Json.arr l)
    ∧ (∀ v, (handleUpdateRequest d i st).2 = some v → ∃ l, v = Json.arr l)
    ∧ (∀ v, (handleDeleteRequest wid st).2 = some v → ∃ l, v = Json.arr l) := by
  exact ⟨fun v hv => add_write_arr d st v hv,
    fun v hv => update_write_arr d i st v hv,
    fun v hv => delete_write_arr wid st v hv⟩

theorem c6_witness :
    (handleAddRequest (some (Json.num 7)) none).2 =
      some (Json.arr [Json.num 7])
    ∧ ∃ l, Json.arr [Json.num 7] = Json.arr l := by
  have h := c6_writes_are_arrays none [] rfl (some (Json.num 7))
    (some (Json.str "a")) 0
  exact ⟨rfl, h.1 (Json.arr [Json.num 7]) rfl⟩

/-! ## C7 -/

/-- C7: a POST body whose `action` field is the string `"get"` is
answered with `{websites: X}` where `X` is the stored array, or `[]` when
the key is absent; no write is performed. -/
theorem c7_get_action (data : Json) (st : Option Json) (ws : List Json)
    (hact : jsProp data "action" = some (some (Json.str "get")))
    (hst : readWebsites st = some ws) :
    handleApiRequest "POST" (some data) st =
      (jsonResp (Json.obj [("websites", Json.arr ws)]), none) := by
  have hget : handleGetRequest st =
      jsonResp (Json.obj [("websites", Json.arr ws)]) := by
    rcases readWebsites_cases hst with ⟨rfl, rfl⟩ | rfl <;> rfl
  simp [handleApiRequest, hact, hget]

theorem c7_witness :
    handleApiRequest "POST"
      (some (Json.obj [("action", Json.str "get")]))
      (some (Json.arr [Json.obj [("id", Json.str "a")]])) =
      (jsonResp (Json.obj [("websites",
        Json.arr [Json.obj [("id", Json.str "a")]])]), none) := by
  exact c7_get_action (Json.obj [("action", Json.str "get")])
    (some (Json.arr [Json.obj [("id", Json.str "a")]]))
    [Json.obj [("id", Json.str "a")]] rfl rfl

/-! ## C1 -/

/-- C1 counterexample: a GET request to the API path `/api/x` (method
neither POST nor OPTIONS) does not get status 405 — the router only
delegates POST requests to the API handler, so the request falls through
to static file serving (here, a 404 for the missing index document). -/
theorem c1_counterexample :
    (fetch ⟨"GET", "/api/x", none⟩ ⟨fun _ => none, none⟩).1.status ≠ 405 := by
  decide

/-- C1 (amended): a request to an API path (path ends in `/worker.js` or
starts with `/api/`) whose method is neither POST nor OPTIONS is never
answered 405; it is handled by the static file server — on the request
path itself when it carries a static suffix, otherwise on `/index.html`.
The 405 branch of `handleApiRequest` is unreachable from `fetch`. -/
theorem c1_api_path_non_post_is_static (req : Request) (env : Env)
    (hm : req.method ≠ "POST") (ho : req.method ≠ "OPTIONS")
    (hapi : jsEndsWith req.path "/worker.js" = true ∨
      jsStartsWith req.path "/api/" = true) :
    fetch req env =
      (serveStaticFile
        (if isStaticPath req.path then req.path else "/index.html")
        env.assets, none)
    ∧ (fetch req env).1.status ≠ 405 := by
  have hserve : ∀ p, (serveStaticFile p env.assets).status ≠ 405 := by
    intro p
    unfold serveStaticFile
    simp only []
    split
    · split <;> simp
    · simp
  have h1 : fetch req env =
      (serveStaticFile
        (if isStaticPath req.path then req.path else "/index.html")
        env.assets, none) := by
    unfold fetch
    rw [if_neg ho, if_neg (fun hh => hm hh.1)]
    by_cases hsp : isStaticPath req.path <;> simp [hsp]
  refine ⟨h1, ?_⟩
  rw [h1]
  exact hserve _

theorem c1_amended_witness :
    fetch ⟨"GET", "/api/x", none⟩ ⟨fun _ => none, none⟩ =
      (serveStaticFile "/index.html" (fun _ => none), none)
    ∧ (fetch ⟨"GET", "/api/x", none⟩ ⟨fun _ => none, none⟩).1.status ≠ 405 := by
  have h := c1_api_path_non_post_is_static ⟨"GET", "/api/x", none⟩
    ⟨fun _ => none, none⟩ (by decide) (by decide) (Or.inr (by decide))
  have e : isStaticPath "/api/x" = false := by decide
  rw [e] at h
  simpa using h

/-! ## C8 -/

/-- Two suffix tests with incomparable suffixes cannot both succeed. -/
theorem jsEndsWith_excludes {s p q : String} (h : jsEndsWith s p = true)
    (hpq : ¬ p.data <:+ q.data) (hqp : ¬ q.data <:+ p.data) :
    jsEndsWith s q = false := by
  unfold jsEndsWith at h ⊢
  rw [List.isSuffixOf_iff_suffix] at h
  rw [Bool.eq_false_iff]
  intro hq
  rw [List.isSuffixOf_iff_suffix] at hq
  rcases Nat.le_total p.data.length q.data.length with hle | hle
  · exact hpq (List.suffix_of_suffix_length_le h hq hle)
  · exact hqp (List.suffix_of_suffix_length_le hq h hle)

/-- C8: the static server strips one leading slash, looks the key up,
serves a found (non-empty) value with the suffix-derived content type,
and answers 404 with a plain-text body on a miss; the suffix table is as
in the source, with `application/octet-stream` as the default. -/
theorem c8_static_file_serving (path : String)
    (assets : String → Option String) :
    (∀ v, assets (stripSlash path) = some v → v ≠ "" →
      serveStaticFile path assets =
        ⟨200, Body.text v, some (getContentType (stripSlash path))⟩)
    ∧ (assets (stripSlash path) = none →
      serveStaticFile path assets =
        ⟨404, Body.text "File not found", some "text/plain"⟩)
    ∧ (∀ s, jsEndsWith s ".html" = true → getContentType s = "text/html")
    ∧ (∀ s, jsEndsWith s ".css" = true → getContentType s = "text/css")
    ∧ (∀ s, jsEndsWith s ".js" = true →
        getContentType s = "application/javascript")
    ∧ (∀ s, jsEndsWith s ".png" = true → getContentType s = "image/png")
    ∧ (∀ s, jsEndsWith s ".jpg" = true → getContentType s = "image/jpeg")
    ∧ (∀ s, jsEndsWith s ".jpeg" = true → getContentType s = "image/jpeg")
    ∧ (∀ s, jsEndsWith s ".svg" = true → getContentType s = "image/svg+xml")
    ∧ getContentType "file.bin" = "application/octet-stream" := by
  refine ⟨?_, ?_, ?_, ?_, ?_, ?_, ?_, ?_, ?_, by decide⟩
  · intro v hv hne
    unfold serveStaticFile
    simp only []
    rw [hv]
    simp [hne]
  · intro hv
    unfold serveStaticFile
    simp only []
    rw [hv]
  · intro s h
    unfold getContentType
    rw [if_pos h]
  · intro s h
    have e1 := @jsEndsWith_excludes s ".css" ".html" h (by decide) (by decide)
    simp [getContentType, h, e1]
  · intro s h
    have e1 := @jsEndsWith_excludes s ".js" ".html" h (by decide) (by decide)
    have e2 := @jsEndsWith_excludes s ".js" ".css" h (by decide) (by decide)
    simp [getContentType, h, e1, e2]
  · intro s h
    have e1 := @jsEndsWith_excludes s ".png" ".html" h (by decide) (by decide)
    have e2 := @jsEndsWith_excludes s ".png" ".css" h (by decide) (by decide)
    have e3 := @jsEndsWith_excludes s ".png" ".js" h (by decide) (by decide)
    simp [getContentType, h, e1, e2, e3]
  · intro s h
    have e1 := @jsEndsWith_excludes s ".jpg" ".html" h (by decide) (by decide)
    have e2 := @jsEndsWith_excludes s ".jpg" ".css" h (by decide) (by decide)
    have e3 := @jsEndsWith_excludes s ".jpg" ".js" h (by decide) (by decide)
    have e4 := @jsEndsWith_excludes s ".jpg" ".png" h (by decide) (by decide)
    simp [getContentType, h, e1, e2, e3, e4]
  · intro s h
    have e1 := @jsEndsWith_excludes s ".jpeg" ".html" h (by decide) (by decide)
    have e2 := @jsEndsWith_excludes s ".jpeg" ".css" h (by decide) (by decide)
    have e3 := @jsEndsWith_excludes s ".jpeg" ".js" h (by decide) (by decide)
    have e4 := @jsEndsWith_excludes s ".jpeg" ".png" h (by decide) (by decide)
    simp [getContentType, h, e1, e2, e3, e4]
  · intro s h
    have e1 := @jsEndsWith_excludes s ".svg" ".html" h (by decide) (by decide)
    have e2 := @jsEndsWith_excludes s ".svg" ".css" h (by decide) (by decide)
    have e3 := @jsEndsWith_excludes s ".svg" ".js" h (by decide) (by decide)
    have e4 := @jsEndsWith_excludes s ".svg" ".png" h (by decide) (by decide)
    have e5 := @jsEndsWith_excludes s ".svg" ".jpg" h (by decide) (by decide)
    have e6 := @jsEndsWith_excludes s ".svg" ".jpeg" h (by decide) (by decide)
    simp [getContentType, h, e1, e2, e3, e4, e5, e6]

theorem c8_witness :
    serveStaticFile "/style.css" (fun _ => some "css-bytes") =
      ⟨200, Body.text "css-bytes", some "text/css"⟩
    ∧ getContentType "style.css" = "text/css" := by
  have h := c8_static_file_serving "/style.css" (fun _ => some "css-bytes")
  have h1 := h.1 "css-bytes" rfl (by decide)
  have h2 := h.2.2.2.1 "style.css" (by decide)
  exact ⟨by rw [h1]; rfl, h2⟩

/-! ## C9 -/

/-- C9: a key that exists in the store with the empty string as its value
is served as 404 "File not found": the `if (fileContent)` found-test
treats the empty string as absent. -/
theorem c9_empty_asset_404 (path : String)
    (assets : String → Option String)
    (h : assets (stripSlash path) = some "") :
    serveStaticFile path assets =
      ⟨404, Body.text "File not found", some "text/plain"⟩ := by
  unfold serveStaticFile
  simp only []
  rw [h]
  simp

theorem c9_witness :
    serveStaticFile "/empty.png" (fun _ => some "") =
      ⟨404, Body.text "File not found", some "text/plain"⟩ := by
  exact c9_empty_asset_404 "/empty.png" (fun _ => some "") rfl

/-! ## C10 -/

/-- C10: the delete filter compares ids by JavaScript strict equality:
an element whose `id` is a number survives a delete whose identifier is
any string (in particular the string form of that number), and a delete
carrying no `id` (identifier `undefined`) removes exactly the elements
that lack an `id` field. -/
theorem c10_delete_strict_equality (st : Option Json) (ws : List Json)
    (hst : readWebsites st = some ws) (hnn : Json.null ∉ ws) :
    (∀ (s : String) (n : Int),
      (handleDeleteRequest (some (Json.str s)) st).2 =
        some (Json.arr (ws.filter
          (fun w => !strictEq (jsId w) (some (Json.str s)))))
      ∧ ∀ w ∈ ws, jsId w = some (Json.num n) →
          w ∈ ws.filter (fun w => !strictEq (jsId w) (some (Json.str s))))
    ∧ ((handleDeleteRequest none st).2 =
        some (Json.arr (ws.filter (fun w => !strictEq (jsId w) none)))
      ∧ ∀ w ∈ ws,
          (w ∈ ws.filter (fun w => !strictEq (jsId w) none) ↔
            jsId w ≠ none)) := by
  refine ⟨fun s n => ⟨?_, ?_⟩, ?_, ?_⟩
  · rw [handleDelete_eq st ws (some (Json.str s)) hst hnn]
  · intro w hw hid
    refine List.mem_filter.mpr ⟨hw, ?_⟩
    rw [hid]
    rfl
  · rw [handleDelete_eq st ws none hst hnn]
  · intro w hw
    rw [List.mem_filter]
    constructor
    · rintro ⟨-, hp⟩ hnone
      rw [hnone] at hp
      simp [strictEq] at hp
    · intro hne
      refine ⟨hw, ?_⟩
      cases hjw : jsId w with
      | none => exact absurd hjw hne
      | some v => cases v <;> rfl

theorem c10_witness :
    (handleDeleteRequest (some (Json.str "3"))
        (some (Json.arr [Json.obj [("id", Json.num 3)]]))).2 =
      some (Json.arr [Json.obj [("id", Json.num 3)]]) := by
  have h := c10_delete_strict_equality
    (some (Json.arr [Json.obj [("id", Json.num 3)]]))
    [Json.obj [("id", Json.num 3)]] rfl (by simp)
  exact ((h.1 "3" 3).1).trans (by rfl)
